import Mathlib

/-!
Verification of the multi-region Mailchimp dashboard cache backend
(`backend/database.py`, `backend/mailchimp_service.py`, `backend/main.py`).

Shallow-embedding conventions:
* Timestamps (ISO-8601 strings in the code, compared lexicographically by
  SQLite, which agrees with chronological order for well-formed values) are
  modeled as `Nat`; `datetime.utcnow() - timedelta(days=days)` becomes
  `now - days` in abstract time units.
* Float-valued rates coming from the upstream API are carried around opaquely;
  no code under verification computes with them, so they are modeled as `Nat`
  fields that are merely stored and copied.
* The upstream HTTP API (`requests` sessions inside `MailchimpClient._get`)
  is an external collaborator; each endpoint is a function parameter whose
  `none` result models the `return None` taken on timeout / request errors.
* `json.dumps` / `json.loads` (Python stdlib, external) are modeled by the
  constructor pair `Payload.wellFormed` / `Payload.malformed`:
  a stored `data_json` text either round-trips to the campaign dict that was
  serialized, or fails to load.
* `passlib`'s bcrypt `pwd_context.verify` is external; it is a function
  parameter of the authentication embedding.
-/

/-- Campaign summary record as built by `MailchimpClient.get_campaigns`
(one dict per upstream campaign). -/
structure Summary where
  id : String
  web_id : Nat
  title : String
  subject_line : String
  send_time : Nat
  emails_sent : Nat
  archive_url : String
  report_url : String
  audience_id : String
  audience_name : String
  segment_id : Option Nat
  segment_text : String
  recipient_count : Nat
deriving DecidableEq

/-- Per-campaign performance report as built by
`MailchimpClient.get_campaign_report` (the non-empty case). -/
structure Report where
  campaign_id : String
  opens : Nat
  unique_opens : Nat
  open_rate : Nat
  clicks : Nat
  unique_clicks : Nat
  click_rate : Nat
  unsubscribed : Nat
  bounces : Nat
  share_report : String
deriving DecidableEq

/-- A campaign dict as it flows through the system: the summary keys, the
report keys when `{**camp, **report}` merged them in (the two key sets are
disjoint in the source, so the merge never overwrites a summary field), and
the `region` key once `upsert_campaigns` stamped it. -/
structure Camp where
  summary : Summary
  report : Option Report
  region : Option String
deriving DecidableEq

/-- Stored `data_json` column text: either `json.dumps` output that
`json.loads` turns back into the campaign dict, or text that fails to load. -/
inductive Payload where
  | wellFormed (c : Camp) : Payload
  | malformed (s : String) : Payload
deriving DecidableEq

/-- Result of `json.loads` on a stored payload (`None` = the exception path
logged by `get_cached_campaigns`). -/
def parsePayload : Payload → Option Camp
  | .wellFormed c => some c
  | .malformed _ => none

/-- One row of the `campaigns(id, region, title, send_time, data_json,
updated_at)` table. Every row is written by `upsert_campaigns`, which always
supplies `id`, `title` and `send_time` from the campaign dict. -/
structure Row where
  id : String
  region : String
  title : String
  send_time : Nat
  data_json : Payload
  updated_at : Nat
deriving DecidableEq

/-- Python truthiness of an optional string (`if region:` treats both `None`
and the empty string as false). -/
def pyStrTruthy : Option String → Bool
  | some s => s ≠ ""
  | none => false

/-- Stamping `camp['region'] = region` onto a campaign dict (done by
`upsert_campaigns` before serializing; it mutates the very dicts the caller
later returns). -/
def stampRegion (r : String) (c : Camp) : Camp :=
  { c with region := some r }

/-- Key match used by `ON CONFLICT(id, region)`. -/
def keyMatch (cid r : String) (row : Row) : Bool :=
  row.id == cid && row.region == r

/-- One `INSERT ... ON CONFLICT(id, region) DO UPDATE` statement of
`upsert_campaigns`: replace `title`, `send_time`, `data_json` and bump
`updated_at` on the conflicting row, otherwise insert a fresh row. -/
def upsertOne (r : String) (now : Nat) (camp : Camp) (db : List Row) : List Row :=
  let cid := camp.summary.id
  let newData := Payload.wellFormed (stampRegion r camp)
  if db.any (keyMatch cid r) then
    db.map (fun row =>
      if keyMatch cid r row then
        { row with
            title := camp.summary.title
            send_time := camp.summary.send_time
            data_json := newData
            updated_at := now }
      else row)
  else
    db ++ [{ id := cid, region := r, title := camp.summary.title,
             send_time := camp.summary.send_time, data_json := newData,
             updated_at := now }]

/-- Embedding of `database.upsert_campaigns(campaigns_data, region)`:
a loop of conflict-resolving single-row writes, committed together. -/
def upsert_campaigns (campaigns_data : List Camp) (region : String) (now : Nat)
    (db : List Row) : List Row :=
  campaigns_data.foldl (fun acc camp => upsertOne region now camp acc) db

/-- Row filter of the `SELECT` in `get_cached_campaigns`: optional region
equality plus `send_time >= cutoff` (`if region:` uses Python truthiness). -/
def rowSelected (region : Option String) (cutoff : Nat) (row : Row) : Bool :=
  (if pyStrTruthy region then row.region == region.getD "" else true)
    && cutoff ≤ row.send_time

/-- Stable descending insertion used to model `ORDER BY send_time DESC`. -/
def insertDesc (x : Row) : List Row → List Row
  | [] => [x]
  | y :: ys => if y.send_time < x.send_time then x :: y :: ys else y :: insertDesc x ys

/-- Stable descending sort by `send_time`, modeling `ORDER BY send_time DESC`
(ties keep their table order, which SQLite leaves unspecified). -/
def sortDesc : List Row → List Row
  | [] => []
  | x :: xs => insertDesc x (sortDesc xs)

/-- Embedding of `database.get_cached_campaigns(days, region)`: select rows
matching the region/window filter ordered by send time descending with
`LIMIT 1000`, then `json.loads` each `data_json`, skipping rows whose payload
fails to load. -/
def get_cached_campaigns (days : Nat) (region : Option String) (now : Nat)
    (db : List Row) : List Camp :=
  let cutoff := now - days
  (((sortDesc (db.filter (rowSelected region cutoff))).take 1000).filterMap
    (fun row => parsePayload row.data_json))

/-- Modelled from the spec (for the C4 refinement comparison): "returns
exactly the subset with `sendTime >= now - D days`" whose "payload parses as
JSON, ordered descending by `sendTime`, truncated at the row cap" of 1000 —
i.e. malformed payloads are dropped from the matching rows before the
1000-row truncation is applied. -/
def getCachedSpec (days : Nat) (region : Option String) (now : Nat)
    (db : List Row) : List Camp :=
  let cutoff := now - days
  ((((sortDesc (db.filter (rowSelected region cutoff))).filter
      (fun row => (parsePayload row.data_json).isSome)).take 1000).filterMap
    (fun row => parsePayload row.data_json))

/-! Embedding of `mailchimp_service.py`. Each upstream endpoint consumed via
`MailchimpClient._get` is a function parameter; a `none` value models the
`None` returned on timeout or request error. -/

/-- Raw `segment_opts` sub-dict of an upstream campaign (`recipients.get`
fields are read with `.get`, hence optional). -/
structure RawSegmentOpts where
  saved_segment_id : Option Nat
  prebuilt_segment_id : Option Nat
  segment_text : Option String
  matchKind : Option String
deriving DecidableEq

/-- Raw `recipients` sub-dict of an upstream campaign. -/
structure RawRecipients where
  list_id : Option String
  list_name : Option String
  segment_opts : Option RawSegmentOpts
  segment_text : Option String
  recipient_count : Option Nat
deriving DecidableEq

/-- Raw upstream campaign object: the fields `get_campaigns` indexes without
a default (`c['id']`, `c['web_id']`, `c['settings']['title']`, ...) are
required; `c.get('recipients', {})` is optional. -/
structure RawCamp where
  id : String
  web_id : Nat
  title : String
  subject_line : String
  send_time : Nat
  emails_sent : Nat
  archive_url : String
  recipients : Option RawRecipients
deriving DecidableEq

/-- Default of `c.get('recipients', {})` and of the nested dict reads. -/
def emptyRecipients : RawRecipients :=
  { list_id := none, list_name := none, segment_opts := none,
    segment_text := none, recipient_count := none }

/-- Default of `recipients.get('segment_opts', {})`. -/
def emptySegmentOpts : RawSegmentOpts :=
  { saved_segment_id := none, prebuilt_segment_id := none,
    segment_text := none, matchKind := none }

/-- Python `a or b` on optional ints (`None` and `0` are falsy). -/
def pyOrNat (a b : Option Nat) : Option Nat :=
  match a with
  | some n => if n = 0 then b else some n
  | none => b

/-- Embedding of `MailchimpClient.get_segment_name(list_id, segment_id)`:
`None` on falsy ids, otherwise a `GET /lists/{id}/segments/{id}` whose body,
when present, yields `data.get('name', '')`. `segApi` models that endpoint. -/
def get_segment_name (segApi : String → Nat → Option String)
    (list_id : String) (segment_id : Nat) : Option String :=
  if list_id = "" ∨ segment_id = 0 then none
  else match segApi list_id segment_id with
       | some body => some body
       | none => none

/-- One page returned by `GET /campaigns` (presence of the `campaigns` key
included; `total_items` read with default 0). -/
structure Page where
  campaigns : List RawCamp
  total_items : Nat

/-- Per-campaign dict construction inside the `get_campaigns` loop, including
the `a or b or c` fallback chain for `segment_text` and the memoized
`get_segment_name` lookup (`segApi` is a pure function, so the per-client
`_segment_cache` memoization returns exactly the value looked up). -/
def mkSummary (segApi : String → Nat → Option String) (adminUrl : String)
    (c : RawCamp) : Summary :=
  let recipients := c.recipients.getD emptyRecipients
  let list_id := recipients.list_id.getD ""
  let list_name := recipients.list_name.getD "Unknown Audience"
  let segment_opts := recipients.segment_opts.getD emptySegmentOpts
  let segment_id := pyOrNat segment_opts.saved_segment_id segment_opts.prebuilt_segment_id
  let segment_text₀ :=
    if pyStrTruthy recipients.segment_text then recipients.segment_text.getD ""
    else if pyStrTruthy segment_opts.segment_text then segment_opts.segment_text.getD ""
    else segment_opts.matchKind.getD ""
  let segment_text :=
    match segment_id with
    | some sid =>
        if sid ≠ 0 ∧ segment_text₀ = "" then
          let nm := get_segment_name segApi list_id sid
          if pyStrTruthy nm then nm.getD "" else "Segment #" ++ toString sid
        else segment_text₀
    | none => segment_text₀
  { id := c.id
    web_id := c.web_id
    title := c.title
    subject_line := c.subject_line
    send_time := c.send_time
    emails_sent := c.emails_sent
    archive_url := c.archive_url
    report_url := adminUrl ++ "/reports/summary?id=" ++ toString c.web_id
    audience_id := list_id
    audience_name := list_name
    segment_id := segment_id
    segment_text := segment_text
    recipient_count := recipients.recipient_count.getD 0 }

/-- The `while True` pagination loop of `MailchimpClient.get_campaigns`,
instrumented with a flag recording whether a page fetch came back without
data (the `if not data or 'campaigns' not in data: break` branch).
`pages since offset count` models `GET /campaigns` with those parameters. -/
def getCampaignsLoop (pages : Nat → Nat → Nat → Option Page)
    (segApi : String → Nat → Option String) (adminUrl : String)
    (since count : Nat) (acc : List Summary) (offset : Nat) :
    List Summary × Bool :=
  let reqCount := min 1000 (count - acc.length)
  match pages since offset reqCount with
  | none => (acc, true)
  | some pg =>
    if pg.campaigns = [] then (acc, false)
    else
      let acc₂ := acc ++ pg.campaigns.map (mkSummary segApi adminUrl)
      if pg.total_items ≤ acc₂.length ∨ count ≤ acc₂.length then (acc₂, false)
      else getCampaignsLoop pages segApi adminUrl since count acc₂ (offset + 1000)
termination_by count - acc.length
decreasing_by
  rename_i hne hstop
  push_neg at hstop
  have hlen : pg.campaigns.length ≠ 0 := fun h => hne (List.eq_nil_of_length_eq_zero h)
  simp only [acc₂, List.length_append, List.length_map] at hstop ⊢
  omega

/-- Embedding of `MailchimpClient.get_campaigns(days, status, count)`
together with its page-failure flag; `since := now - days` models the
`since_send_time` lower bound. -/
def get_campaignsI (pages : Nat → Nat → Nat → Option Page)
    (segApi : String → Nat → Option String) (adminUrl : String)
    (now days count : Nat) : List Summary × Bool :=
  getCampaignsLoop pages segApi adminUrl (now - days) count [] 0

/-- The campaign list `get_campaigns` returns to its caller. -/
def get_campaigns (pages : Nat → Nat → Nat → Option Page)
    (segApi : String → Nat → Option String) (adminUrl : String)
    (now days count : Nat) : List Summary :=
  (get_campaignsI pages segApi adminUrl now days count).1

/-- Raw body of `GET /reports/{campaign_id}` (every field is read with a
defaulted `.get`; rates are opaque numbers, see the file header). -/
structure RawReport where
  opens_total : Option Nat
  unique_opens : Option Nat
  open_rate : Option Nat
  clicks_total : Option Nat
  unique_clicks : Option Nat
  click_rate : Option Nat
  unsubscribed : Option Nat
  hard_bounces : Option Nat
  soft_bounces : Option Nat
  share_url : Option String
deriving DecidableEq

/-- Embedding of `MailchimpClient.get_campaign_report(campaign_id)`:
`none` models the empty dict `{}` returned when the upstream call fails
(the function never raises); otherwise the metric dict is assembled from the
body with zero defaults. `reports` models `GET /reports/{id}`. -/
def get_campaign_report (reports : String → Option RawReport)
    (campaign_id : String) : Option Report :=
  match reports campaign_id with
  | none => none
  | some d => some
    { campaign_id := campaign_id
      opens := d.opens_total.getD 0
      unique_opens := d.unique_opens.getD 0
      open_rate := d.open_rate.getD 0
      clicks := d.clicks_total.getD 0
      unique_clicks := d.unique_clicks.getD 0
      click_rate := d.click_rate.getD 0
      unsubscribed := d.unsubscribed.getD 0
      bounces := d.hard_bounces.getD 0 + d.soft_bounces.getD 0
      share_report := (d.share_url.getD "") }

/-- Body of `fetch_report_with_delay`: merge the report into the campaign
dict when it is truthy (`{**camp, **report}` — key sets disjoint, so the
summary fields survive unchanged), else return the campaign unchanged. -/
def fetchReportMerge (reports : String → Option RawReport) (s : Summary) : Camp :=
  match get_campaign_report reports s.id with
  | none => { summary := s, report := none, region := none }
  | some rep => { summary := s, report := some rep, region := none }

/-- Batched report aggregation of `MailchimpClient.get_dashboard_data`:
`for i in range(0, len(campaigns), batch_size)` slices batches of 10, each
run on a 5-worker pool and joined before the next batch starts. Worker
completion order within a batch is nondeterministic; this embedding uses the
submission (input) order as its linearization. -/
def aggregateReports (reports : String → Option RawReport)
    (campaigns : List Summary) : List Camp :=
  if campaigns = [] then []
  else (campaigns.take 10).map (fetchReportMerge reports)
    ++ aggregateReports reports (campaigns.drop 10)
termination_by campaigns.length
decreasing_by
  rename_i hne
  have : campaigns.length ≠ 0 := fun h => hne (List.eq_nil_of_length_eq_zero h)
  simp only [List.length_drop]
  omega

/-- Embedding of `MailchimpClient.get_dashboard_data(days)`: list the
campaigns, short-circuit on an empty listing, otherwise attach reports. -/
def clientDashboard (pages : Nat → Nat → Nat → Option Page)
    (segApi : String → Nat → Option String)
    (reports : String → Option RawReport) (adminUrl : String)
    (now days : Nat) : List Camp :=
  let campaigns := get_campaigns pages segApi adminUrl now days 1000
  if campaigns = [] then []
  else aggregateReports reports campaigns

/-- Process-wide `MultiRegionMailchimpService` state: the configured region
list (detected once from the environment at startup) and, per region, the
upstream endpoints of that region's `MailchimpClient`. -/
structure Sys where
  regions : List String
  pages : String → Nat → Nat → Nat → Option Page
  segApi : String → String → Nat → Option String
  reports : String → String → Option RawReport
  adminUrl : String → String

/-- The per-region `client.get_dashboard_data(days)` call. -/
def sysClientDashboard (sys : Sys) (r : String) (now days : Nat) : List Camp :=
  clientDashboard (sys.pages r) (sys.segApi r) (sys.reports r) (sys.adminUrl r) now days

/-- Events observable by collaborators of the `/api/dashboard` handler:
a live per-region fetch (`client.get_dashboard_data`) and a cache write
(`database.upsert_campaigns`). -/
inductive Ev where
  | fetch (region : String)
  | upsert (region : String)
deriving DecidableEq

/-- Embedding of `MultiRegionMailchimpService.get_dashboard_data` for a named
region: `self.clients.get(region)` exists exactly for configured regions;
an unconfigured region yields `[]` with no live fetch. -/
def svcDashboardSingle (sys : Sys) (now days : Nat) (r : String) :
    List Camp × List Ev :=
  if sys.regions.contains r then
    (sysClientDashboard sys r now days, [Ev.fetch r])
  else ([], [])

/-- Embedding of `MultiRegionMailchimpService.get_dashboard_data` for all
regions: one live fetch per configured region, in region order (the
`if client:` guard always holds for configured regions). -/
def svcDashboardAll (sys : Sys) (now days : Nat) :
    List (String × List Camp) × List Ev :=
  (sys.regions.map (fun r => (r, sysClientDashboard sys r now days)),
   sys.regions.map Ev.fetch)

/-! Embedding of the `/api/dashboard` handler (`main.py get_dashboard_data`)
as a state transformer over the campaigns table, returning the HTTP response,
the new table state, and the list of fetch/upsert events performed. -/

/-- Payload shape of the `/api/dashboard` response body. -/
inductive DashData where
  | single (data : List Camp)
  | all (data : List (String × List Camp))
deriving DecidableEq

/-- The `/api/dashboard` response body. -/
structure DashResp where
  source : String
  region : Option String
  data : DashData
deriving DecidableEq

/-- The forced-refresh branch for a named region: one live fetch via the
multi-region service, one `upsert_campaigns`, and the response carries the
freshly fetched dicts (which the upsert stamped with the region in place). -/
def forcedRefreshSingle (sys : Sys) (db : List Row) (now days : Nat)
    (r : String) : DashResp × List Row × List Ev :=
  let fetched := svcDashboardSingle sys now days r
  let db₂ := upsert_campaigns fetched.1 r now db
  ({ source := "mailchimp", region := some r,
     data := DashData.single (fetched.1.map (stampRegion r)) },
   db₂, fetched.2 ++ [Ev.upsert r])

/-- The forced-refresh branch for all regions: fetch every configured region,
then upsert each region's list in region order; the response carries the
fetched dicts, region-stamped in place by the upserts. -/
def forcedRefreshAll (sys : Sys) (db : List Row) (now days : Nat) :
    DashResp × List Row × List Ev :=
  let fetched := svcDashboardAll sys now days
  let db₂ := fetched.1.foldl (fun acc p => upsert_campaigns p.2 p.1 now acc) db
  ({ source := "mailchimp", region := none,
     data := DashData.all (fetched.1.map (fun p => (p.1, p.2.map (stampRegion p.1)))) },
   db₂, fetched.2 ++ fetched.1.map (fun p => Ev.upsert p.1))

/-- Embedding of the `/api/dashboard` handler. `region` is the query
parameter (`none` = absent; `if region:` uses Python truthiness, so an empty
string also takes the all-regions path); the recursive
`get_dashboard_data(force_refresh=True)` calls are the forced-refresh
branches above. -/
def apiDashboard (sys : Sys) (db : List Row) (now days : Nat)
    (region : Option String) (force_refresh : Bool) :
    DashResp × List Row × List Ev :=
  if force_refresh then
    if pyStrTruthy region then
      forcedRefreshSingle sys db now days (region.getD "")
    else
      forcedRefreshAll sys db now days
  else
    if pyStrTruthy region then
      let r := region.getD ""
      let data := get_cached_campaigns days (some r) now db
      if data = [] then forcedRefreshSingle sys db now days r
      else ({ source := "database", region := some r,
              data := DashData.single data }, db, [])
    else
      let all_data := sys.regions.map
        (fun reg => (reg, get_cached_campaigns days (some reg) now db))
      let total_campaigns :=
        (((all_data.map Prod.snd).filter (fun l => l ≠ [])).map List.length).sum
      if total_campaigns < sys.regions.length then
        forcedRefreshAll sys db now days
      else
        ({ source := "database", region := none,
           data := DashData.all all_data }, db, [])

/-- Audience list entry as assembled by `MailchimpClient.get_lists`. -/
structure AudienceInfo where
  id : String
  name : String
  member_count : Nat
  unsubscribe_count : Nat
  open_rate : Nat
  click_rate : Nat
deriving DecidableEq

/-- Embedding of the `/api/audiences` handler for a named region: a region
with no configured client is answered with
`HTTPException(404, "Region {region} not found")`; the error side of the
result models that raised exception. -/
def apiAudiencesSingle (sys : Sys) (lists : String → List AudienceInfo)
    (r : String) : Except String (String × List AudienceInfo) :=
  if sys.regions.contains r then Except.ok (r, lists r)
  else Except.error ("Region " ++ r ++ " not found")

/-! Embedding of the user-management and authentication parts of
`database.py` used by claims C9 and C10. -/

/-- One row of the `users` table (`id` is its primary key). -/
structure User where
  id : String
  email : String
  password_hash : String
  display_name : Option String
  role : String
  must_change_password : Bool
  created_at : Nat
  last_login : Option Nat
deriving DecidableEq

/-- Result dict of `database.delete_user`. -/
inductive DelRes where
  | self_deletion
  | not_found
  | last_admin
  | success
deriving DecidableEq

/-- Embedding of `database.delete_user(user_id, admin_id)`: refuse deleting
yourself, 404 unknown ids, refuse deleting the last admin (count of admins
with a different id is zero), otherwise delete the row. -/
def delete_user (user_id admin_id : String) (users : List User) :
    DelRes × List User :=
  if user_id = admin_id then (DelRes.self_deletion, users)
  else
    match users.find? (fun u => u.id == user_id) with
    | none => (DelRes.not_found, users)
    | some u =>
      if u.role = "admin"
          ∧ (users.filter (fun v => v.role == "admin" && v.id != user_id)).length = 0 then
        (DelRes.last_admin, users)
      else
        (DelRes.success, users.filter (fun v => v.id != user_id))

/-- UTF-8 encoding of one unicode scalar value (Python `str.encode('utf-8')`
per character; Lean `Char` carries exactly the scalar values a well-formed
Python `str` holds). -/
def utf8EncodeChar (c : Char) : List Nat :=
  let n := c.toNat
  if n < 0x80 then [n]
  else if n < 0x800 then [0xC0 + n / 64, 0x80 + n % 64]
  else if n < 0x10000 then
    [0xE0 + n / 4096, 0x80 + n / 64 % 64, 0x80 + n % 64]
  else
    [0xF0 + n / 262144, 0x80 + n / 4096 % 64, 0x80 + n / 64 % 64, 0x80 + n % 64]

/-- Python `s.encode('utf-8')` as a byte list. -/
def utf8Encode (chars : List Char) : List Nat :=
  (chars.map utf8EncodeChar).flatten

/-- Whether a byte is a UTF-8 continuation byte (`0x80`–`0xBF`). -/
def isCont (b : Nat) : Bool :=
  0x80 ≤ b && b < 0xC0

/-- Python `bytes.decode('utf-8', errors='ignore')`: strict UTF-8 decoding
that drops the bytes of any ill-formed sequence (invalid lead bytes,
truncated sequences, overlong forms, surrogates, out-of-range values)
instead of raising. -/
def utf8DecodeIgnore : List Nat → List Char
  | [] => []
  | b :: rest =>
    if b < 0x80 then
      Char.ofNat b :: utf8DecodeIgnore rest
    else if b < 0xC2 then
      utf8DecodeIgnore rest
    else if b < 0xE0 then
      match hr : rest with
      | b1 :: rest₂ =>
        if isCont b1 then Char.ofNat ((b - 0xC0) * 64 + (b1 - 0x80)) :: utf8DecodeIgnore rest₂
        else utf8DecodeIgnore rest
      | [] => []
    else if b < 0xF0 then
      match hr : rest with
      | b1 :: b2 :: rest₂ =>
        if isCont b1 && isCont b2
            && !(b = 0xE0 && b1 < 0xA0) && !(b = 0xED && 0xA0 ≤ b1) then
          Char.ofNat ((b - 0xE0) * 4096 + (b1 - 0x80) * 64 + (b2 - 0x80))
            :: utf8DecodeIgnore rest₂
        else utf8DecodeIgnore rest
      | _ => utf8DecodeIgnore rest
    else if b < 0xF5 then
      match hr : rest with
      | b1 :: b2 :: b3 :: rest₂ =>
        if isCont b1 && isCont b2 && isCont b3
            && !(b = 0xF0 && b1 < 0x90) && !(b = 0xF4 && 0x90 ≤ b1) then
          Char.ofNat ((b - 0xF0) * 262144 + (b1 - 0x80) * 4096
              + (b2 - 0x80) * 64 + (b3 - 0x80))
            :: utf8DecodeIgnore rest₂
        else utf8DecodeIgnore rest
      | _ => utf8DecodeIgnore rest
    else
      utf8DecodeIgnore rest
termination_by l => l.length
decreasing_by all_goals (simp_all; try omega)

/-- Embedding of `database.verify_password(plain_password, hashed_password)`:
truncate the plaintext to its first 72 UTF-8 bytes
(`plain_password.encode('utf-8')[:72].decode('utf-8', errors='ignore')`),
then hand the result to bcrypt. `bcryptVerify` models the external
`pwd_context.verify`. -/
def verify_password (bcryptVerify : List Char → String → Bool)
    (plain_password : String) (hashed_password : String) : Bool :=
  bcryptVerify (utf8DecodeIgnore ((utf8Encode plain_password.data).take 72))
    hashed_password

/-- Python `email.lower()` (ASCII-relevant part used by the stored emails). -/
def emailLower (s : String) : String :=
  String.mk (s.data.map Char.toLower)

/-- Embedding of `database.authenticate_user(email, password)`: look up the
first row whose email equals the lowercased input, verify the password, and
on success bump `last_login` and return the user dict (modeled as the user
row); `none` models the `return None` rejections. -/
def authenticate_user (bcryptVerify : List Char → String → Bool)
    (email password : String) (now : Nat) (users : List User) :
    Option User × List User :=
  match users.find? (fun u => u.email == emailLower email) with
  | none => (none, users)
  | some row =>
    if verify_password bcryptVerify password row.password_hash then
      (some row,
       users.map (fun u => if u.id == row.id then { u with last_login := some now } else u))
    else (none, users)

/-! ### Concrete fixtures used by witnesses and counterexamples -/

/-- Fixture summary with a given send time. -/
def fixSummary (i : Nat) : Summary :=
  { id := "x", web_id := 0, title := "t", subject_line := "s",
    send_time := 2000 - i, emails_sent := 0, archive_url := "",
    report_url := "", audience_id := "", audience_name := "",
    segment_id := none, segment_text := "", recipient_count := 0 }

/-- Fixture campaign dict with a given send time. -/
def fixCamp (i : Nat) : Camp :=
  { summary := fixSummary i, report := none, region := some "US" }

/-- Fixture table row number `i` (send times strictly decreasing in `i`);
row 0 carries a malformed payload, every other row a well-formed one. -/
def fixRow (i : Nat) : Row :=
  { id := "x", region := "US", title := "t", send_time := 2000 - i,
    data_json := if i = 0 then Payload.malformed "oops"
                 else Payload.wellFormed (fixCamp i),
    updated_at := 0 }

/-- 1001 rows matching the window filter, the newest one malformed: more
rows than the SQL `LIMIT 1000` admits. -/
def fixDb1001 : List Row := (List.range 1001).map fixRow

/-- Small two-row table (one malformed payload) for the C4 witness. -/
def fixDbSmall : List Row := [fixRow 0, fixRow 1]

/-- Fixture row keyed `("x", "US")` for the C5 witness. -/
def fixRowUS : Row :=
  { id := "x", region := "US", title := "old", send_time := 7,
    data_json := Payload.malformed "old", updated_at := 1 }

/-- Fixture multi-region system: one configured region `"US"` whose upstream
endpoints all fail (every page fetch returns `none`). -/
def sysW : Sys :=
  { regions := ["US"]
    pages := fun _ _ _ _ => none
    segApi := fun _ _ _ => none
    reports := fun _ _ => none
    adminUrl := fun _ => "adm" }

/-- Fixture `get_lists` collaborator returning no audiences. -/
def fixLists : String → List AudienceInfo := fun _ => []

/-- Fixture raw upstream campaign (no `recipients` dict). -/
def fixRawCamp : RawCamp :=
  { id := "c1", web_id := 1, title := "t", subject_line := "s",
    send_time := 100, emails_sent := 1, archive_url := "a",
    recipients := none }

/-- Fixture first page: one campaign out of a claimed total of 5, so the
pagination loop continues to a second page. -/
def fixPage : Page := { campaigns := [fixRawCamp], total_items := 5 }

/-- Fixture paginated listing endpoint: the first page (offset 0) succeeds,
every later page fails at the network level. -/
def fixPages : Nat → Nat → Nat → Option Page :=
  fun _ offset _ => if offset = 0 then some fixPage else none

/-- Fixture segment endpoint that always fails. -/
def fixSegApi : String → Nat → Option String := fun _ _ => none

/-- Fixture batch of 10 campaign summaries with ids "0".."9". -/
def fixAggCampaigns : List Summary :=
  (List.range 10).map (fun i => { fixSummary i with id := toString i })

/-- Fixture raw report body (all fields defaulted). -/
def fixRawReport : RawReport :=
  { opens_total := none, unique_opens := none, open_rate := none,
    clicks_total := none, unique_clicks := none, click_rate := none,
    unsubscribed := none, hard_bounces := none, soft_bounces := none,
    share_url := none }

/-- Fixture report endpoint failing for campaigns "0", "1" and "2" and
succeeding for the rest. -/
def fixReports : String → Option RawReport :=
  fun cid => if cid = "0" ∨ cid = "1" ∨ cid = "2" then none else some fixRawReport

/-- Fixture admin user. -/
def fixAdmin : User :=
  { id := "u1", email := "a@x", password_hash := "h", display_name := none,
    role := "admin", must_change_password := true, created_at := 0,
    last_login := none }

/-- Fixture viewer user. -/
def fixViewer : User :=
  { id := "v1", email := "v@x", password_hash := "h", display_name := none,
    role := "viewer", must_change_password := true, created_at := 0,
    last_login := none }

/-- Fixture bcrypt verifier distinguishing truncated inputs by length. -/
def fixBcrypt : List Char → String → Bool :=
  fun chars _ => chars.length == 72

/-- An 80-character ASCII password. -/
def fixPw80 : String := "aaaaaaaaaaaaaaaaaaaaaaaaaaaaaaaaaaaaaaaaaaaaaaaaaaaaaaaaaaaaaaaaaaaaaaaaZZZZZZZZ"

/-- A password agreeing with `fixPw80` on its first 72 bytes only. -/
def fixPw75 : String := "aaaaaaaaaaaaaaaaaaaaaaaaaaaaaaaaaaaaaaaaaaaaaaaaaaaaaaaaaaaaaaaaaaaaaaaaQQQ"

/-! ### Theorems -/

/-- Key-distinctness invariant of the `campaigns` table: no two rows share
the `(id, region)` primary key. -/
def RowKeysDistinct (db : List Row) : Prop :=
  db.Pairwise (fun a b => ¬(a.id = b.id ∧ a.region = b.region))

theorem keyMatch_iff {cid r : String} {row : Row} :
    keyMatch cid r row = true ↔ row.id = cid ∧ row.region = r := by
  simp [keyMatch]

theorem rowKeysDistinct_upsertOne {db : List Row} (r : String) (now : Nat)
    (camp : Camp) (h : RowKeysDistinct db) :
    RowKeysDistinct (upsertOne r now camp db) := by
  simp only [upsertOne]
  split
  · refine (List.pairwise_map).mpr (h.imp ?_)
    intro a b hab hk
    apply hab
    revert hk
    split <;> split <;>
      simp_all [keyMatch_iff]
  · rename_i hany
    rw [RowKeysDistinct, List.pairwise_append]
    refine ⟨h, by simp, ?_⟩
    intro a ha b hb
    simp only [List.mem_singleton] at hb
    subst hb
    intro hk
    exact hany (List.any_eq_true.mpr
      ⟨a, ha, keyMatch_iff.mpr ⟨hk.1, hk.2⟩⟩)

theorem rowKeysDistinct_upsert_campaigns (data : List Camp) (r : String)
    (now : Nat) {db : List Row} (h : RowKeysDistinct db) :
    RowKeysDistinct (upsert_campaigns data r now db) := by
  induction data generalizing db with
  | nil => exact h
  | cons c cs ih => exact ih (rowKeysDistinct_upsertOne r now c h)

/-- C5: for any sequence of upserts starting from an empty store, the
campaigns table never holds two rows with the same `(id, region)` pair; and
an upsert whose key already exists replaces the row's `title`, `send_time`
and payload in place instead of adding a row. -/
theorem upsert_key_uniqueness :
    (∀ calls : List (List Camp × String × Nat),
       RowKeysDistinct (calls.foldl
         (fun db c => upsert_campaigns c.1 c.2.1 c.2.2 db) []))
    ∧ ∀ (db : List Row) (camp : Camp) (r : String) (now : Nat),
        (∃ row ∈ db, row.id = camp.summary.id ∧ row.region = r) →
        (upsert_campaigns [camp] r now db).length = db.length
        ∧ ∀ row ∈ upsert_campaigns [camp] r now db,
            row.id = camp.summary.id → row.region = r →
            row.title = camp.summary.title
            ∧ row.send_time = camp.summary.send_time
            ∧ row.data_json = Payload.wellFormed (stampRegion r camp)
            ∧ row.updated_at = now := by
  constructor
  · intro calls
    have : ∀ (cs : List (List Camp × String × Nat)) (db : List Row),
        RowKeysDistinct db →
        RowKeysDistinct (cs.foldl (fun db c => upsert_campaigns c.1 c.2.1 c.2.2 db) db) := by
      intro cs
      induction cs with
      | nil => intro db h; exact h
      | cons c cs ih =>
        intro db h
        exact ih _ (rowKeysDistinct_upsert_campaigns c.1 c.2.1 c.2.2 h)
    exact this calls [] List.Pairwise.nil
  · intro db camp r now hex
    obtain ⟨row₀, hrow₀, hid₀, hreg₀⟩ := hex
    have hany : db.any (keyMatch camp.summary.id r) = true :=
      List.any_eq_true.mpr ⟨row₀, hrow₀, keyMatch_iff.mpr ⟨hid₀, hreg₀⟩⟩
    have hup : upsert_campaigns [camp] r now db = upsertOne r now camp db := rfl
    rw [hup]
    unfold upsertOne
    simp only [hany, if_true]
    constructor
    · exact List.length_map _ _
    · intro row hrow hid hreg
      obtain ⟨src, hsrc, heq⟩ := List.mem_map.mp hrow
      by_cases hk : keyMatch camp.summary.id r src
      · simp only [hk, if_true] at heq
        subst heq
        exact ⟨rfl, rfl, rfl, rfl⟩
      · simp only [hk] at heq
        rw [if_neg (by simp [hk])] at heq
        subst heq
        exact absurd (keyMatch_iff.mpr ⟨hid, hreg⟩) (by simp [hk])

/-- Witness instantiating both parts of the key-uniqueness theorem on a
one-row table whose key collides with the upserted campaign. -/
theorem upsert_key_uniqueness_witness :
    (∃ row ∈ [fixRowUS], row.id = (fixCamp 1).summary.id ∧ row.region = "US")
    ∧ ((upsert_campaigns [fixCamp 1] "US" 5 [fixRowUS]).length = [fixRowUS].length
      ∧ ∀ row ∈ upsert_campaigns [fixCamp 1] "US" 5 [fixRowUS],
          row.id = (fixCamp 1).summary.id → row.region = "US" →
          row.title = (fixCamp 1).summary.title
          ∧ row.send_time = (fixCamp 1).summary.send_time
          ∧ row.data_json = Payload.wellFormed (stampRegion "US" (fixCamp 1))
          ∧ row.updated_at = 5) :=
  ⟨by decide,
   upsert_key_uniqueness.2 [fixRowUS] (fixCamp 1) "US" 5 (by decide)⟩

theorem any_keyMatch_upsertOne (db : List Row) (camp : Camp) (r : String)
    (t : Nat) : (upsertOne r t camp db).any (keyMatch camp.summary.id r) = true := by
  simp only [upsertOne]
  split
  · rename_i hany
    obtain ⟨row₀, hrow₀, hk₀⟩ := List.any_eq_true.mp hany
    refine List.any_eq_true.mpr ⟨_, List.mem_map.mpr ⟨row₀, hrow₀, rfl⟩, ?_⟩
    simp only [hk₀, if_true]
    obtain ⟨h1, h2⟩ := keyMatch_iff.mp hk₀
    exact keyMatch_iff.mpr ⟨h1, h2⟩
  · refine List.any_eq_true.mpr ⟨_, List.mem_append_right _ (List.mem_singleton.mpr rfl), ?_⟩
    exact keyMatch_iff.mpr ⟨rfl, rfl⟩

theorem fields_of_keyMatch_upsertOne (db : List Row) (camp : Camp) (r : String)
    (t : Nat) : ∀ row ∈ upsertOne r t camp db,
    keyMatch camp.summary.id r row = true →
    row.title = camp.summary.title ∧ row.send_time = camp.summary.send_time
    ∧ row.data_json = Payload.wellFormed (stampRegion r camp) := by
  simp only [upsertOne]
  split
  · intro row hrow hk
    obtain ⟨src, hsrc, heq⟩ := List.mem_map.mp hrow
    by_cases hks : keyMatch camp.summary.id r src
    · simp only [hks, if_true] at heq
      subst heq
      exact ⟨rfl, rfl, rfl⟩
    · rw [if_neg (by simp [hks])] at heq
      subst heq
      exact absurd hk (by simp [hks])
  · rename_i hany
    intro row hrow hk
    rcases List.mem_append.mp hrow with hdb | hnew
    · exact absurd (List.any_eq_true.mpr ⟨row, hdb, hk⟩) hany
    · simp only [List.mem_singleton] at hnew
      subst hnew
      exact ⟨rfl, rfl, rfl⟩

/-- C6: upserting the identical campaign twice only refreshes `updated_at`
on the matching row — the second write equals the first state with
`updated_at` bumped on the key's row — and the row count does not grow. -/
theorem upsert_idempotent (db : List Row) (camp : Camp) (r : String)
    (t₁ t₂ : Nat) :
    upsert_campaigns [camp] r t₂ (upsert_campaigns [camp] r t₁ db)
      = (upsert_campaigns [camp] r t₁ db).map
          (fun row => if keyMatch camp.summary.id r row then
            { row with updated_at := t₂ } else row)
    ∧ (upsert_campaigns [camp] r t₂ (upsert_campaigns [camp] r t₁ db)).length
      = (upsert_campaigns [camp] r t₁ db).length := by
  have hstep : ∀ d t, upsert_campaigns [camp] r t d = upsertOne r t camp d :=
    fun d t => rfl
  have hany := any_keyMatch_upsertOne db camp r t₁
  have hfields := fields_of_keyMatch_upsertOne db camp r t₁
  have hmain : upsert_campaigns [camp] r t₂ (upsert_campaigns [camp] r t₁ db)
      = (upsert_campaigns [camp] r t₁ db).map
          (fun row => if keyMatch camp.summary.id r row then
            { row with updated_at := t₂ } else row) := by
    rw [hstep, hstep]
    conv_lhs => rw [upsertOne]
    simp only [hany, if_true]
    refine List.map_congr_left ?_
    intro row hrow
    by_cases hk : keyMatch camp.summary.id r row
    · obtain ⟨h1, h2, h3⟩ := hfields row hrow hk
      simp only [hk, if_true]
      rw [← h1, ← h2, ← h3]
    · simp [hk]
  exact ⟨hmain, by rw [hmain, List.length_map]⟩

theorem mem_insertDesc {z x : Row} {l : List Row} :
    z ∈ insertDesc x l ↔ z = x ∨ z ∈ l := by
  induction l with
  | nil => simp [insertDesc]
  | cons y ys ih =>
    simp only [insertDesc]
    split
    · simp [List.mem_cons]
    · simp only [List.mem_cons, ih]
      tauto

theorem length_insertDesc (x : Row) (l : List Row) :
    (insertDesc x l).length = l.length + 1 := by
  induction l with
  | nil => rfl
  | cons y ys ih =>
    simp only [insertDesc]
    split
    · rfl
    · simp [ih]

theorem length_sortDesc (l : List Row) : (sortDesc l).length = l.length := by
  induction l with
  | nil => rfl
  | cons x xs ih => simp [sortDesc, length_insertDesc, ih]

/-- Descending order by the `send_time` column. -/
def DescBySendTime (l : List Row) : Prop :=
  l.Pairwise (fun a b => b.send_time ≤ a.send_time)

theorem descBySendTime_insertDesc (x : Row) {l : List Row}
    (h : DescBySendTime l) : DescBySendTime (insertDesc x l) := by
  induction l with
  | nil => simp [insertDesc, DescBySendTime]
  | cons y ys ih =>
    obtain ⟨hy, hys⟩ := List.pairwise_cons.mp h
    simp only [insertDesc]
    split
    · rename_i hlt
      rw [DescBySendTime, List.pairwise_cons]
      refine ⟨?_, h⟩
      intro z hz
      rcases List.mem_cons.mp hz with hzy | hz₂
      · subst hzy; exact Nat.le_of_lt hlt
      · exact Nat.le_trans (hy z hz₂) (Nat.le_of_lt hlt)
    · rename_i hnlt
      rw [DescBySendTime, List.pairwise_cons]
      refine ⟨?_, ih hys⟩
      intro z hz
      rcases mem_insertDesc.mp hz with hzx | hz₂
      · subst hzx; exact Nat.le_of_not_lt hnlt
      · exact hy z hz₂

theorem descBySendTime_sortDesc (l : List Row) : DescBySendTime (sortDesc l) := by
  induction l with
  | nil => exact List.Pairwise.nil
  | cons x xs ih => exact descBySendTime_insertDesc x ih

theorem filterMap_filter_isSome {α β : Type} (f : α → Option β) (l : List α) :
    l.filterMap f = (l.filter (fun a => (f a).isSome)).filterMap f := by
  induction l with
  | nil => rfl
  | cons a l ih =>
    by_cases h : (f a).isSome
    · obtain ⟨b, hb⟩ := Option.isSome_iff_exists.mp h
      simp [List.filterMap_cons, List.filter_cons, h, hb, ih]
    · have hnone : f a = none := Option.not_isSome_iff_eq_none.mp h
      simp [List.filterMap_cons, List.filter_cons, h, hnone, ih]

/-- C4 (amended): the selected rows come out in descending `send_time`
order, and whenever at most 1000 stored rows match the region/window filter
(so the SQL `LIMIT` does not truncate), `get_cached_campaigns` returns
exactly the matching records whose payload parses, newest first — the
spec-side reading `getCachedSpec`. The amendment is forced because the
`LIMIT 1000` is applied to the raw rows before malformed payloads are
skipped (see the counterexample). -/
theorem cached_windowed_read (days : Nat) (region : Option String)
    (now : Nat) (db : List Row) :
    DescBySendTime (sortDesc (db.filter (rowSelected region (now - days))))
    ∧ ((db.filter (rowSelected region (now - days))).length ≤ 1000 →
        get_cached_campaigns days region now db = getCachedSpec days region now db) := by
  refine ⟨descBySendTime_sortDesc _, ?_⟩
  intro hb
  simp only [get_cached_campaigns, getCachedSpec]
  rw [List.take_of_length_le (by rw [length_sortDesc]; exact hb)]
  rw [List.take_of_length_le
    (Nat.le_trans (List.length_filter_le _ _) (by rw [length_sortDesc]; exact hb))]
  exact filterMap_filter_isSome _ _

/-- Witness for the amended windowed read on a small table containing one
malformed payload. -/
theorem cached_windowed_read_witness :
    (fixDbSmall.filter (rowSelected none (30 - 30))).length ≤ 1000
    ∧ DescBySendTime (sortDesc (fixDbSmall.filter (rowSelected none (30 - 30))))
    ∧ get_cached_campaigns 30 none 30 fixDbSmall = getCachedSpec 30 none 30 fixDbSmall :=
  ⟨by decide, (cached_windowed_read 30 none 30 fixDbSmall).1,
   (cached_windowed_read 30 none 30 fixDbSmall).2 (by decide)⟩

set_option maxRecDepth 40000 in
theorem fixDb1001_code_length :
    (get_cached_campaigns 30 none 30 fixDb1001).length = 999 := by decide

set_option maxRecDepth 40000 in
theorem fixDb1001_spec_length :
    (getCachedSpec 30 none 30 fixDb1001).length = 1000 := by decide

/-- C4 counterexample: on 1001 matching rows whose newest row holds a
malformed payload, the code returns 999 records (the `LIMIT 1000` dropped
the oldest matching row before parse filtering) while the claimed reading
returns 1000 — so the claim as stated fails. -/
theorem cached_windowed_read_cex :
    ¬ (get_cached_campaigns 30 none 30 fixDb1001
        = getCachedSpec 30 none 30 fixDb1001) := by
  intro h
  have hlen := congrArg List.length h
  rw [fixDb1001_code_length, fixDb1001_spec_length] at hlen
  exact absurd hlen (by decide)

/-- C2: a single-region cache read (region configured) that finds an empty
cache performs exactly one live fetch and one upsert for that region and
returns the freshly fetched data with source `"mailchimp"`; a non-empty
cache read returns the cached rows unchanged, with no fetch and no upsert. -/
theorem dashboard_single_region_cache (sys : Sys) (db : List Row)
    (now days : Nat) (r : String) (hmem : sys.regions.contains r = true)
    (hr : r ≠ "") :
    (get_cached_campaigns days (some r) now db = [] →
      apiDashboard sys db now days (some r) false
        = ({ source := "mailchimp", region := some r,
             data := DashData.single
               ((sysClientDashboard sys r now days).map (stampRegion r)) },
           upsert_campaigns (sysClientDashboard sys r now days) r now db,
           [Ev.fetch r, Ev.upsert r]))
    ∧ (get_cached_campaigns days (some r) now db ≠ [] →
      apiDashboard sys db now days (some r) false
        = ({ source := "database", region := some r,
             data := DashData.single (get_cached_campaigns days (some r) now db) },
           db, [])) := by
  have htr : pyStrTruthy (some r) = true := by simp [pyStrTruthy, hr]
  have hmem₂ : r ∈ sys.regions := by simpa using hmem
  constructor
  · intro hempty
    simp [apiDashboard, htr, hempty, forcedRefreshSingle, svcDashboardSingle, hmem₂]
  · intro hne
    simp [apiDashboard, htr, hne]

/-- Witness: on the one-region system with an empty store, the `"US"` cache
read is empty, so the handler does exactly one fetch and one upsert. -/
theorem dashboard_single_region_cache_witness :
    sysW.regions.contains "US" = true ∧ "US" ≠ ""
    ∧ get_cached_campaigns 30 (some "US") 0 [] = []
    ∧ apiDashboard sysW [] 0 30 (some "US") false
        = ({ source := "mailchimp", region := some "US",
             data := DashData.single
               ((sysClientDashboard sysW "US" 0 30).map (stampRegion "US")) },
           upsert_campaigns (sysClientDashboard sysW "US" 0 30) "US" 0 [],
           [Ev.fetch "US", Ev.upsert "US"]) :=
  ⟨by decide, by decide, rfl,
   (dashboard_single_region_cache sysW [] 0 30 "US" (by decide) (by decide)).1 rfl⟩

/-- C1: on an all-regions cache read, if the summed cached row count is
below the number of configured regions the handler performs the all-regions
forced refresh (live fetch per region, upsert per region, response sourced
`"mailchimp"` carrying the fresh data); otherwise it returns the cached
per-region data unchanged with source `"database"`, no fetches, no upserts. -/
theorem dashboard_all_regions_cache (sys : Sys) (db : List Row)
    (now days : Nat) :
    (((((sys.regions.map (fun reg => (reg, get_cached_campaigns days (some reg) now db))).map
          Prod.snd).filter (fun l => l ≠ [])).map List.length).sum
        < sys.regions.length →
      apiDashboard sys db now days none false = forcedRefreshAll sys db now days
      ∧ (forcedRefreshAll sys db now days).1.source = "mailchimp"
      ∧ (forcedRefreshAll sys db now days).2.2
          = sys.regions.map Ev.fetch ++ sys.regions.map Ev.upsert
      ∧ (forcedRefreshAll sys db now days).1.data
          = DashData.all ((svcDashboardAll sys now days).1.map
              (fun p => (p.1, p.2.map (stampRegion p.1)))))
    ∧ (sys.regions.length ≤
        ((((sys.regions.map (fun reg => (reg, get_cached_campaigns days (some reg) now db))).map
          Prod.snd).filter (fun l => l ≠ [])).map List.length).sum →
      apiDashboard sys db now days none false
        = ({ source := "database", region := none,
             data := DashData.all (sys.regions.map
               (fun reg => (reg, get_cached_campaigns days (some reg) now db))) },
           db, [])) := by
  have hunfold : apiDashboard sys db now days none false
      = (if ((((sys.regions.map (fun reg => (reg, get_cached_campaigns days (some reg) now db))).map
            Prod.snd).filter (fun l => l ≠ [])).map List.length).sum
            < sys.regions.length
         then forcedRefreshAll sys db now days
         else ({ source := "database", region := none,
                 data := DashData.all (sys.regions.map
                   (fun reg => (reg, get_cached_campaigns days (some reg) now db))) },
               db, [])) := rfl
  constructor
  · intro h
    refine ⟨?_, rfl, ?_, rfl⟩
    · rw [hunfold, if_pos h]
    · simp [forcedRefreshAll, svcDashboardAll, List.map_map, Function.comp]
  · intro h
    rw [hunfold, if_neg (Nat.not_lt.mpr h)]

/-- Witness: one configured region, empty store — total cached count 0 is
below 1, so the all-regions read becomes a forced refresh. -/
theorem dashboard_all_regions_cache_witness :
    ((((sysW.regions.map (fun reg => (reg, get_cached_campaigns 30 (some reg) 0 []))).map
        Prod.snd).filter (fun l => l ≠ [])).map List.length).sum
      < sysW.regions.length
    ∧ (apiDashboard sysW [] 0 30 none false = forcedRefreshAll sysW [] 0 30
      ∧ (forcedRefreshAll sysW [] 0 30).1.source = "mailchimp"
      ∧ (forcedRefreshAll sysW [] 0 30).2.2
          = sysW.regions.map Ev.fetch ++ sysW.regions.map Ev.upsert
      ∧ (forcedRefreshAll sysW [] 0 30).1.data
          = DashData.all ((svcDashboardAll sysW 0 30).1.map
              (fun p => (p.1, p.2.map (stampRegion p.1))))) :=
  ⟨by decide, (dashboard_all_regions_cache sysW [] 0 30).1 (by decide)⟩

/-- C8 (amended): a request naming a region with no configured client is
answered with a 404 by the audiences endpoint, but the dashboard endpoint
never surfaces a not-found condition: it serves whatever cached rows carry
that region tag, and on an empty cache it returns an empty-data success
response with source `"mailchimp"` (the region-less service fetch yields
`[]` and the upsert of `[]` is a no-op). -/
theorem unknown_region_not_found (sys : Sys)
    (lists : String → List AudienceInfo) (db : List Row) (now days : Nat)
    (r : String) (hmem : sys.regions.contains r = false) (hr : r ≠ "") :
    apiAudiencesSingle sys lists r
      = Except.error ("Region " ++ r ++ " not found")
    ∧ (get_cached_campaigns days (some r) now db = [] →
        apiDashboard sys db now days (some r) false
          = ({ source := "mailchimp", region := some r,
               data := DashData.single [] }, db, [Ev.upsert r]))
    ∧ (get_cached_campaigns days (some r) now db ≠ [] →
        apiDashboard sys db now days (some r) false
          = ({ source := "database", region := some r,
               data := DashData.single (get_cached_campaigns days (some r) now db) },
             db, [])) := by
  have htr : pyStrTruthy (some r) = true := by simp [pyStrTruthy, hr]
  have hnmem : ¬ r ∈ sys.regions := by simpa using hmem
  refine ⟨?_, ?_, ?_⟩
  · simp [apiAudiencesSingle, hnmem]
  · intro hempty
    simp [apiDashboard, htr, hempty, forcedRefreshSingle, svcDashboardSingle,
      hnmem, upsert_campaigns]
  · intro hne
    simp [apiDashboard, htr, hne]

/-- Witness for the amended claim at the concrete unconfigured region
`"XX"` with an empty store. -/
theorem unknown_region_not_found_witness :
    sysW.regions.contains "XX" = false ∧ "XX" ≠ ""
    ∧ apiAudiencesSingle sysW fixLists "XX"
        = Except.error ("Region " ++ "XX" ++ " not found")
    ∧ get_cached_campaigns 30 (some "XX") 0 [] = []
    ∧ apiDashboard sysW [] 0 30 (some "XX") false
        = ({ source := "mailchimp", region := some "XX",
             data := DashData.single [] }, [], [Ev.upsert "XX"]) :=
  ⟨by decide, by decide,
   (unknown_region_not_found sysW fixLists [] 0 30 "XX" (by decide) (by decide)).1,
   rfl,
   (unknown_region_not_found sysW fixLists [] 0 30 "XX" (by decide) (by decide)).2.1 rfl⟩

/-- C8 counterexample: the dashboard request for the unconfigured region
`"XX"` is not answered with a not-found error — it succeeds with source
`"mailchimp"` and empty data (and still calls the upsert), contradicting
"surfaced immediately to the caller as a terminal not-found condition,
rather than the request returning empty or degraded data". -/
theorem dashboard_unknown_region_cex :
    apiDashboard sysW [] 0 30 (some "XX") false
      = ({ source := "mailchimp", region := some "XX",
           data := DashData.single [] }, [], [Ev.upsert "XX"]) := by decide

theorem aggregateReports_eq_map (reports : String → Option RawReport) :
    ∀ (n : Nat) (l : List Summary), l.length ≤ n →
      aggregateReports reports l = l.map (fetchReportMerge reports) := by
  intro n
  induction n with
  | zero =>
    intro l h
    have hl : l = [] := List.eq_nil_of_length_eq_zero (Nat.le_zero.mp h)
    subst hl
    rw [aggregateReports]
    simp
  | succ n ih =>
    intro l h
    rw [aggregateReports]
    by_cases hl : l = []
    · subst hl; simp
    · rw [if_neg hl]
      have hpos : 0 < l.length := List.length_pos.mpr hl
      have hdrop : (l.drop 10).length ≤ n := by
        rw [List.length_drop]
        omega
      rw [ih _ hdrop, ← List.map_append, List.take_append_drop]

/-- C3: the report aggregation stage emits exactly one merged record per
input campaign (whatever the set of failing report fetches); each output
keeps its input summary unmodified and carries exactly the report that
`get_campaign_report` produced for its id; and a failing upstream report
call makes `get_campaign_report` yield the empty report rather than raise,
so the entry merely lacks the metric fields. -/
theorem aggregator_partial_failure (reports : String → Option RawReport)
    (campaigns : List Summary) :
    (aggregateReports reports campaigns).length = campaigns.length
    ∧ List.Forall₂
        (fun s out => out.summary = s ∧ out.region = none
          ∧ out.report = get_campaign_report reports s.id)
        campaigns (aggregateReports reports campaigns)
    ∧ ∀ cid, reports cid = none → get_campaign_report reports cid = none := by
  have hmap := aggregateReports_eq_map reports campaigns.length campaigns le_rfl
  refine ⟨by rw [hmap, List.length_map], ?_, ?_⟩
  · rw [hmap]
    rw [List.forall₂_map_right_iff]
    rw [List.forall₂_same]
    intro s _
    simp only [fetchReportMerge]
    cases hrep : get_campaign_report reports s.id <;> simp [hrep]
  · intro cid h
    simp [get_campaign_report, h]

/-- Witness: a batch of 10 campaigns whose report fetch fails for ids
"0", "1", "2" — all 10 entries come back, summaries intact. -/
theorem aggregator_partial_failure_witness :
    (aggregateReports fixReports fixAggCampaigns).length = fixAggCampaigns.length
    ∧ List.Forall₂
        (fun s out => out.summary = s ∧ out.region = none
          ∧ out.report = get_campaign_report fixReports s.id)
        fixAggCampaigns (aggregateReports fixReports fixAggCampaigns)
    ∧ (fixReports "0" = none ∧ get_campaign_report fixReports "0" = none) :=
  ⟨(aggregator_partial_failure fixReports fixAggCampaigns).1,
   (aggregator_partial_failure fixReports fixAggCampaigns).2.1,
   by decide,
   (aggregator_partial_failure fixReports fixAggCampaigns).2.2 "0" (by decide)⟩

theorem getCampaignsLoop_none (pages : Nat → Nat → Nat → Option Page)
    (segApi : String → Nat → Option String) (adminUrl : String)
    (since count : Nat) (acc : List Summary) (offset : Nat)
    (h : pages since offset (min 1000 (count - acc.length)) = none) :
    getCampaignsLoop pages segApi adminUrl since count acc offset = (acc, true) := by
  unfold getCampaignsLoop
  simp [h]

theorem getCampaignsLoop_one_page_then_fail (pages : Nat → Nat → Nat → Option Page)
    (segApi : String → Nat → Option String) (adminUrl : String)
    (since count : Nat) (pg : Page)
    (h0 : pages since 0 (min 1000 count) = some pg)
    (hne : pg.campaigns ≠ [])
    (hlt1 : (pg.campaigns.map (mkSummary segApi adminUrl)).length < pg.total_items)
    (hlt2 : (pg.campaigns.map (mkSummary segApi adminUrl)).length < count)
    (h1 : pages since 1000
        (min 1000 (count - (pg.campaigns.map (mkSummary segApi adminUrl)).length)) = none) :
    getCampaignsLoop pages segApi adminUrl since count [] 0
      = (pg.campaigns.map (mkSummary segApi adminUrl), true) := by
  unfold getCampaignsLoop
  simp only [List.length_nil, Nat.sub_zero, h0]
  rw [if_neg hne]
  simp only [List.nil_append]
  rw [if_neg (not_or.mpr ⟨Nat.not_le.mpr hlt1, Nat.not_le.mpr hlt2⟩)]
  exact getCampaignsLoop_none pages segApi adminUrl since count _ _ h1

/-- C7 (amended): a page fetch that comes back without data stops the
pagination loop, but the campaigns accumulated from earlier successful pages
ARE returned to the caller (a partial listing), contrary to the claim that
the whole listing is aborted; in particular a successful first page followed
by a failing second page yields exactly the first page's campaigns. -/
theorem get_campaigns_partial_on_page_failure :
    (∀ (pages : Nat → Nat → Nat → Option Page) segApi adminUrl since count
        (acc : List Summary) offset,
        pages since offset (min 1000 (count - acc.length)) = none →
        getCampaignsLoop pages segApi adminUrl since count acc offset = (acc, true))
    ∧ ∀ (pages : Nat → Nat → Nat → Option Page) segApi adminUrl now days count
        (pg : Page),
        pages (now - days) 0 (min 1000 count) = some pg →
        pg.campaigns ≠ [] →
        (pg.campaigns.map (mkSummary segApi adminUrl)).length < pg.total_items →
        (pg.campaigns.map (mkSummary segApi adminUrl)).length < count →
        pages (now - days) 1000
            (min 1000 (count - (pg.campaigns.map (mkSummary segApi adminUrl)).length)) = none →
        get_campaigns pages segApi adminUrl now days count
          = pg.campaigns.map (mkSummary segApi adminUrl) := by
  constructor
  · intro pages segApi adminUrl since count acc offset h
    exact getCampaignsLoop_none pages segApi adminUrl since count acc offset h
  · intro pages segApi adminUrl now days count pg h0 hne hlt1 hlt2 h1
    have hloop := getCampaignsLoop_one_page_then_fail pages segApi adminUrl
      (now - days) count pg h0 hne hlt1 hlt2 h1
    show (getCampaignsLoop pages segApi adminUrl (now - days) count [] 0).1 = _
    rw [hloop]

/-- Witness: the fixture upstream serves one campaign on the first page
(claiming 5 in total) and fails on the second page; the listing returns that
one campaign together with the failure flag. -/
theorem get_campaigns_partial_on_page_failure_witness :
    fixPages 30 0 (min 1000 1000) = some fixPage
    ∧ fixPage.campaigns ≠ []
    ∧ (fixPage.campaigns.map (mkSummary fixSegApi "adm")).length < fixPage.total_items
    ∧ (fixPage.campaigns.map (mkSummary fixSegApi "adm")).length < 1000
    ∧ fixPages 30 1000
        (min 1000 (1000 - (fixPage.campaigns.map (mkSummary fixSegApi "adm")).length)) = none
    ∧ get_campaigns fixPages fixSegApi "adm" 60 30 1000
        = fixPage.campaigns.map (mkSummary fixSegApi "adm") :=
  ⟨rfl, by decide, by decide, by decide, rfl,
   get_campaigns_partial_on_page_failure.2 fixPages fixSegApi "adm" 60 30 1000
     fixPage rfl (by decide) (by decide) (by decide) rfl⟩

/-- C7 counterexample: in the fixture run, the second page fails at the
network level (the failure flag is set), yet the listing returned to the
caller is the non-empty partial accumulation from the first page — the
claim that no partial listing is returned is false on this input. -/
theorem get_campaigns_abort_cex :
    (get_campaignsI fixPages fixSegApi "adm" 60 30 1000).2 = true
    ∧ (get_campaignsI fixPages fixSegApi "adm" 60 30 1000).1
        = [mkSummary fixSegApi "adm" fixRawCamp]
    ∧ [mkSummary fixSegApi "adm" fixRawCamp] ≠ ([] : List Summary) := by
  have hloop := getCampaignsLoop_one_page_then_fail fixPages fixSegApi "adm"
    30 1000 fixPage rfl (by decide) (by decide) (by decide) rfl
  have he : get_campaignsI fixPages fixSegApi "adm" 60 30 1000
      = (fixPage.campaigns.map (mkSummary fixSegApi "adm"), true) := hloop
  rw [he]
  exact ⟨rfl, rfl, by decide⟩

/-- C9 (amended): once an admin exists and ids are distinct (the `users`
primary key), `delete_user` always leaves at least one admin in the table;
a deletion whose target, found in the table, is an admin with no other
admin left is rejected with the `last_admin` error and leaves the table
unchanged, provided the caller is not the target (a caller targeting
themselves is rejected earlier with the `self_deletion` error, which also
leaves the table unchanged); and a deletion succeeds only if the target is
not an admin or another admin remains. -/
theorem delete_user_last_admin (users : List User) (user_id admin_id : String) :
    (users.Pairwise (fun a b => a.id ≠ b.id) →
      (∃ u ∈ users, u.role = "admin") →
      ∃ u ∈ (delete_user user_id admin_id users).2, u.role = "admin")
    ∧ (user_id ≠ admin_id →
       ∀ u, users.find? (fun v => v.id == user_id) = some u →
         u.role = "admin" →
         (users.filter (fun v => v.role == "admin" && v.id != user_id)).length = 0 →
         delete_user user_id admin_id users = (DelRes.last_admin, users))
    ∧ ((delete_user user_id admin_id users).1 = DelRes.success →
       ∃ u, users.find? (fun v => v.id == user_id) = some u
         ∧ (u.role ≠ "admin"
            ∨ (users.filter (fun v => v.role == "admin" && v.id != user_id)).length ≠ 0)) := by
  have hsymm : Symmetric (fun (a b : User) => a.id ≠ b.id) :=
    fun _ _ h e => h e.symm
  refine ⟨?_, ?_, ?_⟩
  · intro hdist hex
    obtain ⟨w, hw, hwadmin⟩ := hex
    by_cases hid : user_id = admin_id
    · have h2 : (delete_user user_id admin_id users).2 = users := by
        simp [delete_user, hid]
      rw [h2]
      exact ⟨w, hw, hwadmin⟩
    · cases hfind : users.find? (fun v => v.id == user_id) with
      | none =>
        have h2 : (delete_user user_id admin_id users).2 = users := by
          simp [delete_user, hid, hfind]
        rw [h2]
        exact ⟨w, hw, hwadmin⟩
      | some u =>
        have hu_mem : u ∈ users := List.mem_of_find?_eq_some hfind
        have hu_id : u.id = user_id := by
          have := List.find?_some hfind
          simpa using this
        by_cases hcond : u.role = "admin"
            ∧ (users.filter (fun v => v.role == "admin" && v.id != user_id)).length = 0
        · have h2 : (delete_user user_id admin_id users).2 = users := by
            simp only [delete_user, hid, if_false, hfind]
            rw [if_pos hcond]
          rw [h2]
          exact ⟨w, hw, hwadmin⟩
        · have h2 : (delete_user user_id admin_id users).2
              = users.filter (fun v => v.id != user_id) := by
            simp only [delete_user, hid, if_false, hfind]
            rw [if_neg hcond]
          rw [h2]
          by_cases hrole : u.role = "admin"
          · have hcount : (users.filter
                (fun v => v.role == "admin" && v.id != user_id)).length ≠ 0 :=
              fun h0 => hcond ⟨hrole, h0⟩
            have hnil : users.filter (fun v => v.role == "admin" && v.id != user_id) ≠ [] :=
              fun h0 => hcount (by rw [h0]; rfl)
            obtain ⟨v, hv⟩ := List.exists_mem_of_ne_nil _ hnil
            have hv₂ := List.mem_filter.mp hv
            obtain ⟨hvmem, hvprop⟩ := hv₂
            simp only [Bool.and_eq_true, beq_iff_eq, bne_iff_ne] at hvprop
            refine ⟨v, List.mem_filter.mpr ⟨hvmem, ?_⟩, hvprop.1⟩
            simpa using hvprop.2
          · have hwid : w.id ≠ user_id := by
              intro hweq
              rcases eq_or_ne w u with hwu | hwu
              · exact hrole (hwu ▸ hwadmin)
              · exact (hdist.forall hsymm hw hu_mem hwu) (hweq.trans hu_id.symm)
            refine ⟨w, List.mem_filter.mpr ⟨hw, ?_⟩, hwadmin⟩
            simpa using hwid
  · intro hne u hfind hrole hcount
    simp only [delete_user, hfind]
    rw [if_neg hne, if_pos ⟨hrole, hcount⟩]
  · intro hsucc
    by_cases hid : user_id = admin_id
    · exfalso
      simp [delete_user, hid] at hsucc
    · cases hfind : users.find? (fun v => v.id == user_id) with
      | none =>
        exfalso
        simp [delete_user, hid, hfind] at hsucc
      | some u =>
        by_cases hcond : u.role = "admin"
            ∧ (users.filter (fun v => v.role == "admin" && v.id != user_id)).length = 0
        · exfalso
          have hd : delete_user user_id admin_id users = (DelRes.last_admin, users) := by
            simp only [delete_user, hfind]
            rw [if_neg hid, if_pos hcond]
          rw [hd] at hsucc
          simp at hsucc
        · refine ⟨u, rfl, ?_⟩
          by_cases hrole : u.role = "admin"
          · exact Or.inr (fun h0 => hcond ⟨hrole, h0⟩)
          · exact Or.inl hrole

/-- Witness for the amended last-admin theorem: a two-user table on which
the invariant, the last-admin rejection (different caller) and the
success characterization are all exercised. -/
theorem delete_user_last_admin_witness :
    [fixAdmin, fixViewer].Pairwise (fun a b => a.id ≠ b.id)
    ∧ (∃ u ∈ [fixAdmin, fixViewer], u.role = "admin")
    ∧ (∃ u ∈ (delete_user "v1" "u1" [fixAdmin, fixViewer]).2, u.role = "admin")
    ∧ delete_user "u1" "za" [fixAdmin, fixViewer]
        = (DelRes.last_admin, [fixAdmin, fixViewer])
    ∧ (delete_user "v1" "u1" [fixAdmin, fixViewer]).1 = DelRes.success
    ∧ ∃ u, [fixAdmin, fixViewer].find? (fun v => v.id == "v1") = some u
        ∧ (u.role ≠ "admin"
           ∨ (List.filter (fun v => v.role == "admin" && v.id != "v1")
                [fixAdmin, fixViewer]).length ≠ 0) :=
  ⟨by decide, by decide,
   (delete_user_last_admin [fixAdmin, fixViewer] "v1" "u1").1 (by decide) (by decide),
   (delete_user_last_admin [fixAdmin, fixViewer] "u1" "za").2.1 (by decide)
     fixAdmin (by decide) rfl (by decide),
   by decide,
   (delete_user_last_admin [fixAdmin, fixViewer] "v1" "u1").2.2 (by decide)⟩

/-- C9 counterexample: when the sole admin is the deletion target AND the
caller, `delete_user` returns the `self_deletion` error, not the claimed
`last_admin` error (the table is still left unchanged). -/
theorem delete_sole_admin_self_cex :
    (List.filter (fun u => u.role == "admin") [fixAdmin]).length = 1
    ∧ delete_user "u1" "u1" [fixAdmin] = (DelRes.self_deletion, [fixAdmin])
    ∧ DelRes.self_deletion ≠ DelRes.last_admin := by decide

/-- C10: the accept/reject result of password checking depends only on the
first 72 UTF-8 bytes of the plaintext — two passwords whose encodings agree
on those bytes verify identically against every stored hash and drive
`authenticate_user` to identical results, for every bcrypt verifier. -/
theorem password_prefix72 (bcryptVerify : List Char → String → Bool)
    (p₁ p₂ : String)
    (h : (utf8Encode p₁.data).take 72 = (utf8Encode p₂.data).take 72) :
    (∀ hash, verify_password bcryptVerify p₁ hash
        = verify_password bcryptVerify p₂ hash)
    ∧ ∀ (email : String) (now : Nat) (users : List User),
        authenticate_user bcryptVerify email p₁ now users
          = authenticate_user bcryptVerify email p₂ now users := by
  have hv : ∀ hash, verify_password bcryptVerify p₁ hash
      = verify_password bcryptVerify p₂ hash := by
    intro hash
    simp only [verify_password, h]
  refine ⟨hv, ?_⟩
  intro email now users
  simp only [authenticate_user]
  cases hfind : users.find? (fun u => u.email == emailLower email) with
  | none => rfl
  | some row =>
    dsimp only
    rw [hv row.password_hash]

/-- Witness: an 80-byte password and a 75-byte password sharing their first
72 bytes verify and authenticate identically under the fixture verifier. -/
theorem password_prefix72_witness :
    (utf8Encode fixPw80.data).take 72 = (utf8Encode fixPw75.data).take 72
    ∧ verify_password fixBcrypt fixPw80 "h" = verify_password fixBcrypt fixPw75 "h"
    ∧ authenticate_user fixBcrypt "a@x" fixPw80 3 [fixAdmin]
        = authenticate_user fixBcrypt "a@x" fixPw75 3 [fixAdmin] :=
  ⟨by decide,
   (password_prefix72 fixBcrypt fixPw80 fixPw75 (by decide)).1 "h",
   (password_prefix72 fixBcrypt fixPw80 fixPw75 (by decide)).2 "a@x" 3 [fixAdmin]⟩
